import Mathlib

/-
Verification of the repository's core components against their specification:
the text-range editor (CodeFileManager), the file-based prompt/answer cache
(FileBasedStore), and the git branch lifecycle manager (GitManager).

Modelling conventions:
- Python strings are modelled as `List Char`; byte strings as `List Nat`
  (each entry < 256 where it matters).
- Fallible Python code returns `Except PyErr _`; an uncaught Python exception
  is `.error e`, a caught-and-logged one produces the benign default the code
  falls back to.
- The filesystem seen by one operation is passed explicitly: a file is
  `Option (List Char)` (`none` = missing), the cache's payload directory is an
  association list from the zero-based row id to the stored payload text.
-/

set_option linter.unusedVariables false

namespace WinCompatFix

/-- The Python exceptions (and distinguished ValueError messages) the modelled
code can raise. `invalidRangeBounds` is the ValueError with message
"Invalid line_range. Invalid boundaries.", `invalidRangeShape` the ValueError
for a line range that is neither an int nor a 2-tuple, `notInitialized` the
ValueError guard "Repository is not initialized.", `attributeError` a Python
AttributeError from dereferencing None, `fileNotFound` FileNotFoundError,
`decodeError` binascii.Error from base64 decoding. -/
inductive PyErr where
  | invalidRangeBounds
  | invalidRangeShape
  | notInitialized
  | attributeError
  | fileNotFound
  | decodeError
  deriving DecidableEq, Repr

/-- A Python line range: `Union[int, Tuple[int, int]]` from
`code_file_manager.py`. -/
inductive LineRange where
  | single : Int → LineRange
  | pair : Int → Int → LineRange
  deriving DecidableEq, Repr

/-- Clamp one endpoint of a Python slice `xs[a:b]` to a valid position:
negative indices count from the end, and both ends are clamped to `[0, n]`. -/
def pySliceIndex (n : Nat) (i : Int) : Nat :=
  if i < 0 then (max 0 ((n : Int) + i)).toNat else min n i.toNat

/-- Python list slicing `xs[a:b]` (step 1). -/
def pySlice {α : Type} (xs : List α) (a b : Int) : List α :=
  (xs.take (pySliceIndex xs.length b)).drop (pySliceIndex xs.length a)

/-- Number of leading space characters of a line:
`len(line) - len(line.lstrip(" "))` in the source. -/
def countLeadingSpaces (l : List Char) : Nat :=
  (l.takeWhile (fun c => c == ' ')).length

/-- Python's whitespace set for `str.strip()` (space, tab, newline, carriage
return, vertical tab, form feed). -/
def pyIsSpace (c : Char) : Bool :=
  c == ' ' || c == '\t' || c == '\n' || c == '\r' || c == '\x0b' || c == '\x0c'

/-- A line is non-blank when `line.strip()` is truthy, i.e. the line has some
non-whitespace character. -/
def isNonBlank (l : List Char) : Bool :=
  l.any (fun c => !pyIsSpace c)

/-- `CodeFileManager._normalize_line_range` (code_file_manager.py:190-220):
clamps a line range to the file, with symmetric `padding`. The source's only
raise is for a range that is neither an int nor a 2-tuple, a shape the
`LineRange` type already excludes, so the function is total here. -/
def normalizeLineRange (line_range : LineRange) (line_count : Int)
    (padding : Int) : Int × Int :=
  match line_range with
  | .single r => (max 1 (r - padding), min line_count (r + padding))
  | .pair a b => (max 1 (a - padding), min line_count (b + padding))

/-- `CodeFileManager._calculate_indent_level` (code_file_manager.py:173-184):
minimum leading-space count over the non-blank lines of
`file_lines[start-1:end]`, and `0` when there is no such line. An int range
`n` is first widened to the tuple `(n, n)` as in the source. -/
def calculateIndentLevel (file_lines : List (List Char))
    (line_range : LineRange) : Nat :=
  let se := match line_range with
    | .single n => (n, n)
    | .pair a b => (a, b)
  let indentations :=
    ((pySlice file_lines (se.1 - 1) se.2).filter isNonBlank).map
      countLeadingSpaces
  match indentations with
  | [] => 0
  | x :: xs => xs.foldl min x

/-- Python `code.split("\x5cn")`: split a character list at each newline;
always returns at least one (possibly empty) piece. -/
def splitNl : List Char → List (List Char)
  | [] => [[]]
  | c :: rest =>
    if c = '\n' then [] :: splitNl rest
    else
      match splitNl rest with
      | [] => [[c]]
      | l :: ls => (c :: l) :: ls

/-- Python `"\x5cn".join(pieces)`. -/
def intercalateNl : List (List Char) → List Char
  | [] => []
  | [l] => l
  | l :: l2 :: ls => l ++ '\n' :: intercalateNl (l2 :: ls)

/-- `CodeFileManager._apply_indent` (code_file_manager.py:186-188): prefix
every line of `code` with `spaces` space characters. -/
def applyIndent (code : List Char) (spaces : Nat) : List Char :=
  intercalateNl ((splitNl code).map (fun l => List.replicate spaces ' ' ++ l))

/-- Python `file.readlines()` on the file's text: splits into lines, each line
keeping its trailing newline; a last line without a newline is kept as is. -/
def readlines : List Char → List (List Char)
  | [] => []
  | c :: rest =>
    if c = '\n' then ['\n'] :: readlines rest
    else
      match readlines rest with
      | [] => [[c]]
      | l :: ls => (c :: l) :: ls

/-- Python `file.writelines(lines)` content: the concatenation of the lines. -/
def joinLines (ls : List (List Char)) : List Char :=
  ls.foldr (fun l acc => l ++ acc) []

/-- The indentation adjustment block of `CodeFileManager.update_code_segment`
(code_file_manager.py:124-142): compute the target range's indent and the
replacement's indent, and prefix the replacement with the range's indent
when the replacement's indent is smaller. -/
def indentAdjusted (file_lines : List (List Char)) (s e : Int)
    (updated_code : List Char) : List Char :=
  let current_indent := calculateIndentLevel file_lines (.pair s e)
  let updated_code_lines := splitNl updated_code
  let updated_code_indent :=
    calculateIndentLevel updated_code_lines
      (.pair 1 (updated_code_lines.length : Int))
  if updated_code_indent < current_indent then
    applyIndent updated_code current_indent
  else
    updated_code

/-- `CodeFileManager.update_code_segment` (code_file_manager.py:97-171) on the
file state `fs` (`none` = the file does not exist). Returns the call's outcome
together with the file state after the call. A missing file raises
FileNotFoundError, which the source catches and logs, so the call returns
normally and the file stays absent; invalid bounds raise the ValueError
`invalidRangeBounds`, uncaught, before any write happens. -/
def updateCodeSegment (fs : Option (List Char)) (line_range : LineRange)
    (updated_code : List Char) : Except PyErr Unit × Option (List Char) :=
  match fs with
  | none => (.ok (), none)
  | some content =>
    let file_lines := readlines content
    let line_count : Int := (file_lines.length : Int)
    let se := normalizeLineRange line_range line_count 0
    let s := se.1
    let e := se.2
    let updated := indentAdjusted file_lines s e updated_code
    match line_range with
    | .single _ =>
      if 1 ≤ s ∧ s ≤ e ∧ e ≤ line_count then
        (.ok (),
          some (joinLines (file_lines.set (s - 1).toNat (updated ++ ['\n']))))
      else
        (.error .invalidRangeBounds, some content)
    | .pair _ _ =>
      if 1 ≤ s ∧ s ≤ e ∧ e ≤ line_count then
        (.ok (),
          some (joinLines (file_lines.take (s - 1).toNat ++
            (updated ++ ['\n']) :: file_lines.drop e.toNat)))
      else
        (.error .invalidRangeBounds, some content)

/-- Structural equality on `Except` is decidable; this lets the concrete
executions below be checked by evaluation. -/
def exceptDecEq {e a : Type} [DecidableEq e] [DecidableEq a] :
    (x y : Except e a) → Decidable (x = y)
  | .ok x, .ok y =>
    match decEq x y with
    | .isTrue h => .isTrue (by rw [h])
    | .isFalse h => .isFalse (fun hc => h (Except.ok.inj hc))
  | .error x, .error y =>
    match decEq x y with
    | .isTrue h => .isTrue (by rw [h])
    | .isFalse h => .isFalse (fun hc => h (Except.error.inj hc))
  | .ok _, .error _ => .isFalse (fun hc => Except.noConfusion hc)
  | .error _, .ok _ => .isFalse (fun hc => Except.noConfusion hc)

instance {e a : Type} [DecidableEq e] [DecidableEq a] :
    DecidableEq (Except e a) := exceptDecEq

theorem foldl_min_le_start : ∀ (xs : List Nat) (a : Nat), xs.foldl min a ≤ a
  | [], a => le_refl a
  | x :: xs, a => le_trans (foldl_min_le_start xs (min a x)) (min_le_left a x)

theorem foldl_min_le_mem : ∀ (xs : List Nat) (a y : Nat), y ∈ xs →
    xs.foldl min a ≤ y
  | x :: xs, a, y, h => by
    rcases List.mem_cons.mp h with h1 | h2
    · subst h1
      exact le_trans (foldl_min_le_start xs (min a y)) (min_le_right a y)
    · exact foldl_min_le_mem xs (min a x) y h2

theorem foldl_min_cons_le (x : Nat) (xs : List Nat) (y : Nat)
    (h : y ∈ x :: xs) : xs.foldl min x ≤ y := by
  rcases List.mem_cons.mp h with h1 | h2
  · subst h1; exact foldl_min_le_start xs y
  · exact foldl_min_le_mem xs x y h2

/-- The computed indent level is a lower bound on the leading-space count of
every non-blank line of the sliced range. -/
theorem calcIndent_min_le (lines : List (List Char)) (a b : Int)
    (l : List Char) (hl : l ∈ pySlice lines (a - 1) b)
    (hnb : isNonBlank l = true) :
    calculateIndentLevel lines (.pair a b) ≤ countLeadingSpaces l := by
  have hmem : countLeadingSpaces l ∈
      ((pySlice lines (a - 1) b).filter isNonBlank).map countLeadingSpaces :=
    List.mem_map_of_mem _ (List.mem_filter.mpr ⟨hl, hnb⟩)
  simp only [calculateIndentLevel]
  cases hi : ((pySlice lines (a - 1) b).filter isNonBlank).map
      countLeadingSpaces with
  | nil => rw [hi] at hmem; cases hmem
  | cons x xs =>
    rw [hi] at hmem
    exact foldl_min_cons_le x xs _ hmem

theorem splitNl_ne_nil (cs : List Char) : splitNl cs ≠ [] := by
  induction cs with
  | nil => simp [splitNl]
  | cons c rest ih =>
    by_cases hc : c = '\n'
    · simp [splitNl, hc]
    · simp only [splitNl, if_neg hc]
      cases h : splitNl rest <;> simp

theorem splitNl_no_newline (cs : List Char) : ∀ l ∈ splitNl cs, '\n' ∉ l := by
  induction cs with
  | nil =>
    intro l hl
    simp [splitNl] at hl
    subst hl
    simp
  | cons c rest ih =>
    intro l hl
    by_cases hc : c = '\n'
    · rw [show splitNl (c :: rest) = [] :: splitNl rest by
        simp [splitNl, hc]] at hl
      rcases List.mem_cons.mp hl with h1 | h2
      · subst h1; simp
      · exact ih l h2
    · simp only [splitNl, if_neg hc] at hl
      cases h : splitNl rest with
      | nil =>
        rw [h] at hl
        simp at hl
        subst hl
        simp [List.mem_singleton]
        exact fun hx => hc hx.symm
      | cons p ps =>
        rw [h] at hl
        rcases List.mem_cons.mp hl with h1 | h2
        · subst h1
          intro hx
          rcases List.mem_cons.mp hx with h3 | h4
          · exact hc h3.symm
          · exact ih p (h ▸ List.mem_cons_self p ps) h4
        · exact ih l (h ▸ List.mem_cons_of_mem p h2)

theorem splitNl_of_no_newline (l : List Char) (h : '\n' ∉ l) :
    splitNl l = [l] := by
  induction l with
  | nil => simp [splitNl]
  | cons c cl ih =>
    have hc : c ≠ '\n' := fun hx => h (hx ▸ List.mem_cons_self c cl)
    have hcl : '\n' ∉ cl := fun hx => h (List.mem_cons_of_mem c hx)
    simp only [splitNl, if_neg hc, ih hcl]

theorem splitNl_append_newline (l t : List Char) (h : '\n' ∉ l) :
    splitNl (l ++ '\n' :: t) = l :: splitNl t := by
  induction l with
  | nil => simp [splitNl]
  | cons c cl ih =>
    have hc : c ≠ '\n' := fun hx => h (hx ▸ List.mem_cons_self c cl)
    have hcl : '\n' ∉ cl := fun hx => h (List.mem_cons_of_mem c hx)
    simp only [List.cons_append, splitNl, if_neg hc, List.append_eq]
    rw [ih hcl]

theorem splitNl_intercalateNl (parts : List (List Char))
    (h : ∀ p ∈ parts, '\n' ∉ p) (hne : parts ≠ []) :
    splitNl (intercalateNl parts) = parts := by
  induction parts with
  | nil => cases hne rfl
  | cons p ps ih =>
    cases ps with
    | nil =>
      simp only [intercalateNl]
      exact splitNl_of_no_newline p (h p (List.mem_cons_self p []))
    | cons q qs =>
      simp only [intercalateNl]
      rw [splitNl_append_newline p _ (h p (List.mem_cons_self p (q :: qs)))]
      rw [ih (fun x hx => h x (List.mem_cons_of_mem p hx)) (by simp)]

theorem countLeadingSpaces_replicate_append (k : Nat) (l : List Char) :
    countLeadingSpaces (List.replicate k ' ' ++ l) =
      k + countLeadingSpaces l := by
  induction k with
  | zero => simp
  | succ n ih =>
    simp only [List.replicate_succ, List.cons_append, countLeadingSpaces,
      List.takeWhile_cons] at *
    simp only [show (' ' == ' ') = true from rfl, if_true, List.length_cons]
    omega

theorem pySlice_all {α : Type} (xs : List α) :
    pySlice xs 0 (xs.length : Int) = xs := by
  have hlt : ¬ ((xs.length : Int) < 0) := by omega
  have h1 : pySliceIndex xs.length ((xs.length : Int)) = xs.length := by
    simp [pySliceIndex, hlt]
  have h0 : pySliceIndex xs.length 0 = 0 := by
    simp [pySliceIndex]
  simp [pySlice, h1, h0]

/-- C9: for every integer `r` or pair `(a, b)`, every `total_lines ≥ 1` and
`padding ≥ 0`, `_normalize_line_range` returns `(max 1 (r - padding),
min total_lines (r + padding))` for an integer and `(max 1 (a - padding),
min total_lines (b + padding))` for a pair; the returned start is always
`≥ 1` and the returned end is always `≤ total_lines`, and no exception is
raised (the function is total on int/pair ranges; the source's only raise is
for a shape the `LineRange` type excludes), even when start > end. -/
theorem normalizeLineRange_spec (r a b total padding : Int)
    (htot : 1 ≤ total) (hpad : 0 ≤ padding) :
    normalizeLineRange (.single r) total padding =
      (max 1 (r - padding), min total (r + padding)) ∧
    normalizeLineRange (.pair a b) total padding =
      (max 1 (a - padding), min total (b + padding)) ∧
    (∀ lr : LineRange, 1 ≤ (normalizeLineRange lr total padding).1 ∧
      (normalizeLineRange lr total padding).2 ≤ total) := by
  refine ⟨rfl, rfl, ?_⟩
  intro lr
  cases lr with
  | single n => exact ⟨le_max_left 1 _, min_le_left total _⟩
  | pair x y => exact ⟨le_max_left 1 _, min_le_left total _⟩

/-- Witness for `normalizeLineRange_spec` at `r = 3`, `(a, b) = (2, 9)`,
`total_lines = 5`, `padding = 1`: hypotheses `1 ≤ 5` and `0 ≤ 1` hold and the
clamped results are as computed. -/
theorem normalizeLineRange_spec_witness :
    normalizeLineRange (.single 3) 5 1 = (2, 4) ∧
    normalizeLineRange (.pair 2 9) 5 1 = (1, 5) ∧
    1 ≤ (normalizeLineRange (.pair 2 9) 5 1).1 ∧
    (normalizeLineRange (.pair 2 9) 5 1).2 ≤ 5 := by
  have h := normalizeLineRange_spec 3 2 9 5 1 (by norm_num) (by norm_num)
  exact ⟨h.1.trans (by norm_num), h.2.1.trans (by norm_num),
    (h.2.2 (.pair 2 9)).1, (h.2.2 (.pair 2 9)).2⟩

/-- C10: calling `update_code_segment` on a path that names no existing file
raises no error to the caller and performs no write: the FileNotFoundError
from the read is caught and logged, the call returns normally, and no file is
created, for every line range and every replacement text. -/
theorem updateCodeSegment_missing_file (line_range : LineRange)
    (updated_code : List Char) :
    updateCodeSegment none line_range updated_code =
      (.ok (), none) := rfl

/-- C2: whenever the range check `1 ≤ start ≤ end ≤ line_count` fails after
normalization, `update_code_segment` fails with the ValueError
`invalidRangeBounds` and performs no write: the file content after the call
equals the content before it, byte for byte. -/
theorem updateCodeSegment_rejects_bad_bounds (content : List Char)
    (line_range : LineRange) (updated_code : List Char)
    (h : ¬ (1 ≤ (normalizeLineRange line_range
          ((readlines content).length : Int) 0).1 ∧
        (normalizeLineRange line_range
          ((readlines content).length : Int) 0).1 ≤
          (normalizeLineRange line_range
            ((readlines content).length : Int) 0).2 ∧
        (normalizeLineRange line_range
          ((readlines content).length : Int) 0).2 ≤
          ((readlines content).length : Int))) :
    updateCodeSegment (some content) line_range updated_code =
      (.error .invalidRangeBounds, some content) := by
  cases line_range with
  | single r =>
    simp only [updateCodeSegment]
    rw [if_neg h]
  | pair a b =>
    simp only [updateCodeSegment]
    rw [if_neg h]

/-- Witness for `updateCodeSegment_rejects_bad_bounds`: the range `(5, 3)` on
a five-line file is rejected with `invalidRangeBounds` and the file is left
byte-identical. -/
theorem updateCodeSegment_rejects_bad_bounds_witness :
    updateCodeSegment (some "a\nb\nc\nd\ne\n".toList) (.pair 5 3) ['z'] =
      (.error .invalidRangeBounds, some "a\nb\nc\nd\ne\n".toList) :=
  updateCodeSegment_rejects_bad_bounds "a\nb\nc\nd\ne\n".toList (.pair 5 3)
    ['z'] (by decide)

/-- C6: with `current_indent` the minimum leading-space count over the
non-blank lines of the target range and `candidate_indent` the same measure
over the replacement's lines, the replacement is rewritten by prefixing every
line with `current_indent` spaces exactly when
`candidate_indent < current_indent`; replacement text already indented at
least `current_indent` is left unmodified; and in either case every non-blank
line of the substituted text carries at least `current_indent` leading
spaces. -/
theorem indentAdjusted_spec (file_lines : List (List Char)) (s e : Int)
    (text : List Char) :
    (calculateIndentLevel (splitNl text)
        (.pair 1 ((splitNl text).length : Int)) <
        calculateIndentLevel file_lines (.pair s e) →
      indentAdjusted file_lines s e text =
        applyIndent text (calculateIndentLevel file_lines (.pair s e))) ∧
    (calculateIndentLevel file_lines (.pair s e) ≤
        calculateIndentLevel (splitNl text)
          (.pair 1 ((splitNl text).length : Int)) →
      indentAdjusted file_lines s e text = text) ∧
    (∀ l ∈ splitNl (indentAdjusted file_lines s e text),
      isNonBlank l = true →
      calculateIndentLevel file_lines (.pair s e) ≤ countLeadingSpaces l) := by
  have hcand_le : ∀ l ∈ splitNl text, isNonBlank l = true →
      calculateIndentLevel (splitNl text)
        (.pair 1 ((splitNl text).length : Int)) ≤ countLeadingSpaces l := by
    intro l hl hnb
    apply calcIndent_min_le
    · rw [show (1 : Int) - 1 = 0 by norm_num, pySlice_all]
      exact hl
    · exact hnb
  refine ⟨?_, ?_, ?_⟩
  · intro h
    simp only [indentAdjusted]
    rw [if_pos h]
  · intro h
    simp only [indentAdjusted]
    rw [if_neg (not_lt.mpr h)]
  · intro l hl hnb
    by_cases hlt : calculateIndentLevel (splitNl text)
        (.pair 1 ((splitNl text).length : Int)) <
        calculateIndentLevel file_lines (.pair s e)
    · have heq : indentAdjusted file_lines s e text =
          applyIndent text (calculateIndentLevel file_lines (.pair s e)) := by
        simp only [indentAdjusted]
        rw [if_pos hlt]
      rw [heq] at hl
      have hsplit : splitNl (applyIndent text
          (calculateIndentLevel file_lines (.pair s e))) =
          (splitNl text).map (fun p => List.replicate
            (calculateIndentLevel file_lines (.pair s e)) ' ' ++ p) := by
        simp only [applyIndent]
        apply splitNl_intercalateNl
        · intro p hp
          rcases List.mem_map.mp hp with ⟨p0, hp0, rfl⟩
          intro hx
          rcases List.mem_append.mp hx with h1 | h2
          · exact absurd (List.eq_of_mem_replicate h1) (by decide)
          · exact splitNl_no_newline text p0 hp0 h2
        · intro hmap
          exact splitNl_ne_nil text (List.map_eq_nil_iff.mp hmap)
      rw [hsplit] at hl
      rcases List.mem_map.mp hl with ⟨p0, hp0, rfl⟩
      rw [countLeadingSpaces_replicate_append]
      omega
    · have heq : indentAdjusted file_lines s e text = text := by
        simp only [indentAdjusted]
        rw [if_neg hlt]
      rw [heq] at hl
      exact le_trans (not_lt.mp hlt) (hcand_le l hl hnb)

/-- Witness for `indentAdjusted_spec`: a target range of minimum indent 2 and
an unindented replacement; the replacement is re-indented by two spaces, and
an already-indented replacement is left unmodified. -/
theorem indentAdjusted_spec_witness :
    indentAdjusted [[' ', ' ', 'x']] 1 1 ['y'] = [' ', ' ', 'y'] ∧
    indentAdjusted [[' ', ' ', 'x']] 1 1 [' ', ' ', ' ', 'y'] =
      [' ', ' ', ' ', 'y'] := by
  have h1 := (indentAdjusted_spec [[' ', ' ', 'x']] 1 1 ['y']).1 (by decide)
  have h2 := (indentAdjusted_spec [[' ', ' ', 'x']] 1 1
    [' ', ' ', ' ', 'y']).2.1 (by decide)
  exact ⟨h1.trans (by decide), h2⟩

/-- The standard base64 alphabet used by Python's `base64.b64encode`. -/
def b64Alphabet : List Char :=
  "ABCDEFGHIJKLMNOPQRSTUVWXYZabcdefghijklmnopqrstuvwxyz0123456789+/".toList

/-- The alphabet character for a 6-bit value. -/
def encChar (n : Nat) : Char := b64Alphabet.getD n 'A'

def decCharAux (c : Char) : List Char → Nat → Option Nat
  | [], _ => none
  | a :: as, i => if a = c then some i else decCharAux c as (i + 1)

/-- The 6-bit value of an alphabet character, `none` outside the alphabet. -/
def decChar (c : Char) : Option Nat := decCharAux c b64Alphabet 0

/-- `base64.b64encode` on a byte string: three bytes become four alphabet
characters; a final group of one or two bytes is padded with `=`. -/
def b64EncodeBytes : List Nat → List Char
  | [] => []
  | [b1] => [encChar (b1 / 4), encChar (b1 % 4 * 16), '=', '=']
  | [b1, b2] =>
    [encChar (b1 / 4), encChar (b1 % 4 * 16 + b2 / 16),
      encChar (b2 % 16 * 4), '=']
  | b1 :: b2 :: b3 :: rest =>
    encChar (b1 / 4) :: encChar (b1 % 4 * 16 + b2 / 16) ::
      encChar (b2 % 16 * 4 + b3 / 64) :: encChar (b3 % 64) ::
      b64EncodeBytes rest

/-- `base64.b64decode` on well-formed input: four characters become three
bytes, with `=` padding closing the string; a length not divisible by four or
a character outside the alphabet is a decoding error (`none`). -/
def b64DecodeChars : List Char → Option (List Nat)
  | c1 :: c2 :: c3 :: c4 :: rest =>
    match decChar c1, decChar c2 with
    | some n1, some n2 =>
      if c3 = '=' then
        if c4 = '=' then
          if rest = [] then some [n1 * 4 + n2 / 16] else none
        else none
      else
        match decChar c3 with
        | some n3 =>
          if c4 = '=' then
            if rest = [] then
              some [n1 * 4 + n2 / 16, n2 % 16 * 16 + n3 / 4]
            else none
          else
            match decChar c4 with
            | some n4 =>
              match b64DecodeChars rest with
              | some bs =>
                some ((n1 * 4 + n2 / 16) :: (n2 % 16 * 16 + n3 / 4) ::
                  (n3 % 4 * 64 + n4) :: bs)
              | none => none
            | none => none
        | none => none
    | _, _ => none
  | [] => some []
  | _ => none

/-- `DataStore._serialize_content` (data_store.py:128-134) for a string
query/answer, the string being modelled by its UTF-8 byte sequence: base64
over the bytes, yielding an ASCII key the CSV index stores verbatim. The
source's dict branch (`str(text)` first) only canonicalizes non-string input
and is outside the string-typed claims. -/
def serializeContent (bytes : List Nat) : List Char := b64EncodeBytes bytes

/-- `DataStore._deserialize_content` (data_store.py:136-140): base64 decoding
back to the UTF-8 byte sequence; `none` is binascii.Error. -/
def deserializeContent (s : List Char) : Option (List Nat) := b64DecodeChars s

/-- The on-disk state a `FileBasedStore` instance sees: the index file's
`prompt` column in row order as written text (`none` = the index file is
missing), and the payload directory as an association list from zero-based
row id (the payload file's name) to the stored encoded answer text. Base64
strings contain only `A-Za-z0-9+/=`, so `to_csv` writes them verbatim; what
`read_csv` hands back is modelled by `colReread` below. -/
structure FileBasedStore where
  indexFile : Option (List (List Char))
  payloads : List (Nat × List Char)
  deriving DecidableEq, Repr

/-- The state right after `FileBasedStore.__init__` on a fresh directory: an
index file with an empty `prompt` column and no payload files
(data_store.py:47-62). -/
def initialStore : FileBasedStore :=
  { indexFile := some [], payloads := [] }

/-- What one CSV cell comes back as from `pd.read_csv`: the written text
itself, or a non-string value (int64, float64, NaN or bool), on which the
string comparisons miss and `.encode` raises AttributeError. -/
inductive CsvCell where
  | str : List Char → CsvCell
  | nonStr : CsvCell
  deriving DecidableEq, Repr

/-- pandas' default `na_values`: a written cell equal to one of these comes
back as NaN. -/
def pandasNaLiterals : List (List Char) :=
  ["", "#N/A", "#N/A N/A", "#NA", "-1.#IND", "-1.#QNAN", "-NaN", "-nan",
    "1.#IND", "1.#QNAN", "<NA>", "N/A", "NA", "NULL", "NaN", "None", "n/a",
    "nan", "null"].map String.toList

def isNaLiteral (v : List Char) : Bool := pandasNaLiterals.contains v

/-- Over-approximation of the written values `read_csv` can parse as a
number: digit/exponent/sign characters only (the base64 alphabet has no
minus sign or decimal point), or an infinity literal. Treating a value as
possibly-numeric errs on the safe side: the positive theorems below only
assume a value is handed back verbatim when this is `false`. -/
def csvNumericLike (v : List Char) : Bool :=
  (!v.isEmpty &&
    v.all (fun c => c.isDigit || c == 'e' || c == 'E' || c == '+')) ||
  (["inf", "infinity"].map String.toList).contains (v.map Char.toLower)

/-- Written values `read_csv` can parse as a boolean. -/
def csvBoolLike (v : List Char) : Bool :=
  (["TRUE", "True", "true", "FALSE", "False", "false"].map
    String.toList).contains v

/-- A written value guaranteed to come back from `read_csv` as exactly the
written string: not an NA literal and not parseable as a number or boolean.
Every base64 string containing `=` padding or a `/` is plain; the reachable
exceptions are encodings like `1400` (purely numeric) or the empty
encoding of the empty byte string. -/
def csvPlainString (v : List Char) : Bool :=
  !(isNaLiteral v || csvNumericLike v || csvBoolLike v)

/-- Column dtype inference: a column whose non-NA cells all parse as numbers
becomes numeric, one whose non-NA cells all parse as booleans becomes bool;
in either case every cell comes back as a non-string. Otherwise the column
is object dtype and cells come back as their written strings (except NA
literals, which still become NaN). -/
def colNonStr (rows : List (List Char)) : Bool :=
  rows.all (fun r => isNaLiteral r || csvNumericLike r) ||
  rows.all (fun r => isNaLiteral r || csvBoolLike r)

/-- One cell of a reread column, given the column-wide conversion flag. -/
def cellReread (nonstr : Bool) (v : List Char) : CsvCell :=
  if nonstr || isNaLiteral v then .nonStr else .str v

/-- The `prompt` (or `answer`) column as `pd.read_csv` hands it back. -/
def colReread (rows : List (List Char)) : List CsvCell :=
  rows.map (cellReread (colNonStr rows))

/-- Zero-based index of the first reread cell equal to `c`
(`data_frame.index[data_frame["prompt"] == query].tolist()[0]`). -/
def firstIndexCell (c : CsvCell) : List CsvCell → Nat
  | [] => 0
  | x :: xs => if x = c then 0 else firstIndexCell c xs + 1

/-- Reading payload file `k.csv`: `none` when the file does not exist. -/
def payloadLookup (ps : List (Nat × List Char)) (k : Nat) :
    Option (List Char) :=
  match ps with
  | [] => none
  | (k2, v) :: rest => if k2 = k then some v else payloadLookup rest k

/-- Writing payload file `k.csv` (overwrites an existing file of that name). -/
def payloadWrite (ps : List (Nat × List Char)) (k : Nat) (v : List Char) :
    List (Nat × List Char) :=
  (k, v) :: ps.filter (fun p => p.1 != k)

/-- `os.remove` of payload file `k.csv`, guarded by `os.path.exists`. -/
def payloadDelete (ps : List (Nat × List Char)) (k : Nat) :
    List (Nat × List Char) :=
  ps.filter (fun p => p.1 != k)

/-- `FileBasedStore.store` (data_store.py:64-86). The index is reread through
`colReread`: `query in data_frame["prompt"].values` compares the query
string against the reread cells, so it misses when the whole column was
converted to a non-string dtype. On a hit the source rereads the hit row's
payload file (raising FileNotFoundError when it is missing) and returns
`False` without mutating anything; otherwise it appends the encoded query to
the index and writes the answer payload under the new row's zero-based
position `len(data_frame) - 1`. The write-back of the reread rows is
modelled as text-preserving, which is exact for the cells the theorems
below involve (plain strings, purely numeric text, and NA literals written
back as empty/NaN cells that stay non-strings). -/
def store (σ : FileBasedStore) (query result : List Nat) :
    Except PyErr (Bool × FileBasedStore) :=
  let q := serializeContent query
  let r := serializeContent result
  match σ.indexFile with
  | some prompts =>
    let cells := colReread prompts
    if CsvCell.str q ∈ cells then
      match payloadLookup σ.payloads (firstIndexCell (.str q) cells) with
      | none => .error .fileNotFound
      | some _ => .ok (false, σ)
    else
      let prompts2 := prompts ++ [q]
      let σ2 : FileBasedStore :=
        { indexFile := some prompts2
          payloads := payloadWrite σ.payloads (prompts2.length - 1) r }
      .ok (true, σ2)
  | none =>
    let σ2 : FileBasedStore :=
      { indexFile := some [q]
        payloads := payloadWrite σ.payloads 0 r }
    .ok (true, σ2)

/-- `FileBasedStore.remove` (data_store.py:88-101): drop the hit row from the
reread index (later rows shift up one position when the file is reread), and
delete that row's payload file; no-op when the query misses the reread cells
or the index file is absent. -/
def remove (σ : FileBasedStore) (query : List Nat) : FileBasedStore :=
  let q := serializeContent query
  match σ.indexFile with
  | some prompts =>
    let cells := colReread prompts
    if CsvCell.str q ∈ cells then
      { indexFile := some (prompts.eraseIdx (firstIndexCell (.str q) cells))
        payloads := payloadDelete σ.payloads (firstIndexCell (.str q) cells) }
    else σ
  | none => σ

/-- `FileBasedStore.contains` (data_store.py:103-114): membership of the
query string among the reread cells. -/
def contains (σ : FileBasedStore) (query : List Nat) : Bool :=
  let q := serializeContent query
  match σ.indexFile with
  | some prompts => decide (CsvCell.str q ∈ colReread prompts)
  | none => false

/-- `FileBasedStore.retrieve` (data_store.py:116-126): on a hit, read the hit
row's payload file by its positional id and decode it. `pd.read_csv` on a
missing payload file raises FileNotFoundError, which nothing catches. The
payload column holds a single cell, so its dtype depends on that cell alone:
when the written value is an NA/numeric/bool literal it comes back as a
non-string and `_deserialize_content`'s `.encode` raises AttributeError.
Returns `none` when the query misses the reread index cells or the index
file is absent. -/
def retrieve (σ : FileBasedStore) (query : List Nat) :
    Except PyErr (Option (List Nat)) :=
  let q := serializeContent query
  match σ.indexFile with
  | some prompts =>
    let cells := colReread prompts
    if CsvCell.str q ∈ cells then
      match payloadLookup σ.payloads (firstIndexCell (.str q) cells) with
      | none => .error .fileNotFound
      | some r =>
        if csvPlainString r then
          match deserializeContent r with
          | none => .error .decodeError
          | some bytes => .ok (some bytes)
        else .error .attributeError
    else .ok none
  | none => .ok none

theorem decChar_encChar (n : Nat) (h : n < 64) : decChar (encChar n) = some n := by
  have H : ∀ m, m < 64 → decChar (encChar m) = some m := by decide
  exact H n h

theorem encChar_ne_pad (n : Nat) (h : n < 64) : encChar n ≠ '=' := by
  have H : ∀ m, m < 64 → encChar m ≠ '=' := by decide
  exact H n h

/-- Base64 decoding is the exact inverse of encoding on byte strings. -/
theorem b64_roundtrip : ∀ (bs : List Nat), (∀ x ∈ bs, x < 256) →
    b64DecodeChars (b64EncodeBytes bs) = some bs
  | [], _ => rfl
  | [b1], h => by
    have hb1 : b1 < 256 := h b1 (by simp)
    simp only [b64EncodeBytes, b64DecodeChars,
      decChar_encChar (b1 / 4) (by omega),
      decChar_encChar (b1 % 4 * 16) (by omega)]
    simp only [if_true, Option.some.injEq, List.cons.injEq, and_true]
    omega
  | [b1, b2], h => by
    have hb1 : b1 < 256 := h b1 (by simp)
    have hb2 : b2 < 256 := h b2 (by simp)
    simp only [b64EncodeBytes, b64DecodeChars,
      decChar_encChar (b1 / 4) (by omega),
      decChar_encChar (b1 % 4 * 16 + b2 / 16) (by omega),
      if_neg (encChar_ne_pad (b2 % 16 * 4) (by omega)),
      decChar_encChar (b2 % 16 * 4) (by omega)]
    simp only [if_true, Option.some.injEq, List.cons.injEq, and_true]
    constructor <;> omega
  | b1 :: b2 :: b3 :: rest, h => by
    have hb1 : b1 < 256 := h b1 (by simp)
    have hb2 : b2 < 256 := h b2 (by simp)
    have hb3 : b3 < 256 := h b3 (by simp)
    have hrec := b64_roundtrip rest (fun x hx => h x (by simp [hx]))
    simp only [b64EncodeBytes, b64DecodeChars,
      decChar_encChar (b1 / 4) (by omega),
      decChar_encChar (b1 % 4 * 16 + b2 / 16) (by omega),
      if_neg (encChar_ne_pad (b2 % 16 * 4 + b3 / 64) (by omega)),
      decChar_encChar (b2 % 16 * 4 + b3 / 64) (by omega),
      if_neg (encChar_ne_pad (b3 % 64) (by omega)),
      decChar_encChar (b3 % 64) (by omega)]
    rw [hrec]
    simp only [Option.some.injEq, List.cons.injEq]
    refine ⟨by omega, by omega, by omega, trivial⟩

theorem payloadLookup_write_self (ps : List (Nat × List Char)) (k : Nat)
    (v : List Char) : payloadLookup (payloadWrite ps k v) k = some v := by
  simp [payloadWrite, payloadLookup]

theorem plain_components (v : List Char) (hp : csvPlainString v = true) :
    isNaLiteral v = false ∧ csvNumericLike v = false ∧
      csvBoolLike v = false := by
  revert hp
  cases h1 : isNaLiteral v <;> cases h2 : csvNumericLike v <;>
    cases h3 : csvBoolLike v <;> simp [csvPlainString, h1, h2, h3]

/-- One plain-string row makes the whole column object dtype. -/
theorem colNonStr_false_of_plain (rows : List (List Char)) (v : List Char)
    (hv : v ∈ rows) (hp : csvPlainString v = true) :
    colNonStr rows = false := by
  obtain ⟨hna, hnum, hbool⟩ := plain_components v hp
  have h1 : rows.all (fun r => isNaLiteral r || csvNumericLike r) = false := by
    rw [Bool.eq_false_iff]
    intro hall
    have hx := List.all_eq_true.mp hall v hv
    rw [hna, hnum] at hx
    simp at hx
  have h2 : rows.all (fun r => isNaLiteral r || csvBoolLike r) = false := by
    rw [Bool.eq_false_iff]
    intro hall
    have hx := List.all_eq_true.mp hall v hv
    rw [hna, hbool] at hx
    simp at hx
  simp [colNonStr, h1, h2]

/-- In an object column every cell is its written string, except NA
literals. -/
theorem colReread_object (rows : List (List Char))
    (h : colNonStr rows = false) :
    colReread rows = rows.map (cellReread false) := by
  simp [colReread, h]

theorem str_mem_colReread (rows : List (List Char)) (v : List Char)
    (hv : v ∈ rows) (hp : csvPlainString v = true) :
    CsvCell.str v ∈ colReread rows := by
  obtain ⟨hna, -, -⟩ := plain_components v hp
  rw [colReread_object rows (colNonStr_false_of_plain rows v hv hp)]
  have hc : cellReread false v = CsvCell.str v := by
    simp [cellReread, hna]
  exact hc ▸ List.mem_map_of_mem _ hv

theorem firstIndexCell_append (prompts0 : List (List Char)) (qe : List Char)
    (hnot : qe ∉ prompts0) (hna : isNaLiteral qe = false) :
    firstIndexCell (CsvCell.str qe)
      ((prompts0 ++ [qe]).map (cellReread false)) = prompts0.length := by
  induction prompts0 with
  | nil => simp [firstIndexCell, cellReread, hna]
  | cons p ps ih =>
    have hp : p ≠ qe := fun hx => hnot (hx ▸ List.mem_cons_self p ps)
    have hps : qe ∉ ps := fun hx => hnot (List.mem_cons_of_mem p hx)
    have hcell : cellReread false p ≠ CsvCell.str qe := by
      by_cases hnap : isNaLiteral p = true
      · simp [cellReread, hnap]
      · simp only [Bool.not_eq_true] at hnap
        simp [cellReread, hnap, hp]
    simp only [List.cons_append, List.map_cons, firstIndexCell,
      if_neg hcell, List.length_cons, List.append_eq]
    rw [ih hps]

/-- What a successful `store` of a query with a plain-string encoding
guarantees about the resulting state: the index is the old rows with the
encoded query appended (and the encoded query appears in no earlier row),
and the payload file at the new row's position holds the encoded answer. -/
theorem store_true_out (σ σ2 : FileBasedStore) (q a : List Nat)
    (hqp : csvPlainString (serializeContent q) = true)
    (h : store σ q a = .ok (true, σ2)) :
    ∃ prompts0, σ2.indexFile = some (prompts0 ++ [serializeContent q]) ∧
      serializeContent q ∉ prompts0 ∧
      σ2.payloads = payloadWrite σ.payloads prompts0.length
        (serializeContent a) := by
  cases hidx : σ.indexFile with
  | none =>
    simp only [store, hidx, Except.ok.injEq, Prod.mk.injEq, true_and] at h
    subst h
    exact ⟨[], by simp, by simp, by simp⟩
  | some prompts =>
    by_cases hmem : CsvCell.str (serializeContent q) ∈ colReread prompts
    · simp only [store, hidx, if_pos hmem] at h
      cases hp : payloadLookup σ.payloads
          (firstIndexCell (CsvCell.str (serializeContent q))
            (colReread prompts)) with
      | none => rw [hp] at h; cases h
      | some v => rw [hp] at h; simp at h
    · simp only [store, hidx, if_neg hmem, Except.ok.injEq, Prod.mk.injEq,
        true_and] at h
      subst h
      refine ⟨prompts, rfl, ?_, by simp⟩
      intro hq
      exact hmem (str_mem_colReread prompts _ hq hqp)

/-- The retrieval facts shared by the reread index after a successful store
of a plain-encoded query: the query's cell is present, and its first index
is the appended row's position. -/
theorem reread_hit_facts (prompts0 : List (List Char)) (qe : List Char)
    (hnot : qe ∉ prompts0) (hqp : csvPlainString qe = true) :
    CsvCell.str qe ∈ colReread (prompts0 ++ [qe]) ∧
    firstIndexCell (CsvCell.str qe) (colReread (prompts0 ++ [qe])) =
      prompts0.length := by
  obtain ⟨hna, -, -⟩ := plain_components qe hqp
  have hobj : colNonStr (prompts0 ++ [qe]) = false :=
    colNonStr_false_of_plain _ qe (by simp) hqp
  refine ⟨str_mem_colReread _ qe (by simp) hqp, ?_⟩
  rw [colReread_object _ hobj]
  exact firstIndexCell_append prompts0 qe hnot hna

/-- C4 (counterexample): the claim fails as stated. In a fresh store, storing
the answer bytes `[215, 141, 52]` — a genuine 2-character Python string
(U+05CD followed by `4`) in UTF-8 — under query `hi` succeeds and writes the
payload text `1400`, the base64 encoding of those bytes. On retrieve,
`pd.read_csv` parses the single-cell `answer` column as int64, and
`_deserialize_content` raises AttributeError on the int, so retrieve does
not return the stored answer. -/
theorem retrieve_numeric_payload_counterexample :
    store initialStore [104, 105] [215, 141, 52] =
      .ok (true, ⟨some [['a', 'G', 'k', '=']], [(0, ['1', '4', '0', '0'])]⟩) ∧
    retrieve ⟨some [['a', 'G', 'k', '=']], [(0, ['1', '4', '0', '0'])]⟩
      [104, 105] = .error .attributeError ∧
    retrieve ⟨some [['a', 'G', 'k', '=']], [(0, ['1', '4', '0', '0'])]⟩
      [104, 105] ≠ .ok (some [215, 141, 52]) := by
  refine ⟨by decide, by decide, by decide⟩

/-- C4 (amended): `retrieve` after a successful `store` returns exactly the
stored answer — base64 decoding undoing the encoding exactly — whenever the
encoded forms of the query and of the answer are plain CSV strings, i.e. not
parsed by `pd.read_csv` as NA/numeric/boolean values (any encoding with `=`
padding or a `/` qualifies, which covers answers such as non-ASCII text with
newlines). For the reachable answers whose encoding is purely numeric (for
example bytes `[215, 141, 52]`, encoding `1400`) or empty, the reread hands
back int64/NaN and `_deserialize_content` raises AttributeError instead. -/
theorem retrieve_after_store_plain (σ σ2 : FileBasedStore) (q a : List Nat)
    (ha : ∀ x ∈ a, x < 256)
    (hqp : csvPlainString (serializeContent q) = true)
    (hap : csvPlainString (serializeContent a) = true)
    (h : store σ q a = .ok (true, σ2)) :
    retrieve σ2 q = .ok (some a) := by
  obtain ⟨P0, hidx, hnot, hpl⟩ := store_true_out σ σ2 q a hqp h
  obtain ⟨hmem, hfi⟩ := reread_hit_facts P0 (serializeContent q) hnot hqp
  simp only [retrieve, hidx, if_pos hmem, hfi, hpl,
    payloadLookup_write_self, if_pos hap]
  rw [show deserializeContent (serializeContent a) = some a from
    b64_roundtrip a ha]

/-- Witness for `retrieve_after_store_plain`: storing the answer bytes
`[195, 164, 10]` (UTF-8 for a non-ASCII letter followed by a newline; its
encoding `w6QK` is a plain CSV string) under the query `hi` in a fresh store
succeeds, and `retrieve` returns exactly those bytes. -/
theorem retrieve_after_store_plain_witness :
    retrieve ⟨some [['a', 'G', 'k', '=']], [(0, ['w', '6', 'Q', 'K'])]⟩
      [104, 105] = .ok (some [195, 164, 10]) :=
  retrieve_after_store_plain initialStore
    ⟨some [['a', 'G', 'k', '=']], [(0, ['w', '6', 'Q', 'K'])]⟩
    [104, 105] [195, 164, 10] (by decide) (by decide) (by decide) (by decide)

/-- C5 (counterexample): the claim fails as stated. For the query bytes
`[215, 141, 52]` (a genuine Python string, encoding to `1400`), the first
store on a fresh cache succeeds; on the second store the sole index row
`1400` is reread as an int64 column, the string membership test misses, and
the call appends a duplicate row, writes a second payload and returns `true`
— mutating the state instead of returning `false` without mutation. -/
theorem store_numeric_query_counterexample :
    store initialStore [215, 141, 52] [10] =
      .ok (true, ⟨some [['1', '4', '0', '0']], [(0, ['C', 'g', '=', '='])]⟩) ∧
    store ⟨some [['1', '4', '0', '0']], [(0, ['C', 'g', '=', '='])]⟩
      [215, 141, 52] [20] =
      .ok (true, ⟨some [['1', '4', '0', '0'], ['1', '4', '0', '0']],
        [(1, ['F', 'A', '=', '=']), (0, ['C', 'g', '=', '='])]⟩) ∧
    (⟨some [['1', '4', '0', '0'], ['1', '4', '0', '0']],
        [(1, ['F', 'A', '=', '=']), (0, ['C', 'g', '=', '='])]⟩ :
        FileBasedStore) ≠
      ⟨some [['1', '4', '0', '0']], [(0, ['C', 'g', '=', '='])]⟩ := by
  refine ⟨by decide, by decide, by decide⟩

/-- C5 (amended): cache entries are write-once for every query whose encoded
form is a plain CSV string (not reread by pandas as an NA/numeric/boolean
value): after a first `store(q, a1)` succeeded, a second `store(q, a2)`
returns `false` and leaves the state unchanged, and (when the answer's
encoding is also plain) the answer held for `q` is still the first call's
value. For a query whose encoding is purely numeric, such as `1400`, the
reread membership test misses and the second store appends a duplicate and
returns `true`. -/
theorem store_write_once_plain (σ σ1 : FileBasedStore) (q a1 a2 : List Nat)
    (ha1 : ∀ x ∈ a1, x < 256)
    (hqp : csvPlainString (serializeContent q) = true)
    (hap : csvPlainString (serializeContent a1) = true)
    (h : store σ q a1 = .ok (true, σ1)) :
    store σ1 q a2 = .ok (false, σ1) ∧ retrieve σ1 q = .ok (some a1) := by
  obtain ⟨P0, hidx, hnot, hpl⟩ := store_true_out σ σ1 q a1 hqp h
  obtain ⟨hmem, hfi⟩ := reread_hit_facts P0 (serializeContent q) hnot hqp
  constructor
  · simp only [store, hidx, if_pos hmem, hfi, hpl, payloadLookup_write_self]
  · simp only [retrieve, hidx, if_pos hmem, hfi, hpl,
      payloadLookup_write_self, if_pos hap]
    rw [show deserializeContent (serializeContent a1) = some a1 from
      b64_roundtrip a1 ha1]

/-- Witness for `store_write_once_plain`: after storing answer `[10]` for
query `[1]` (encoding `AQ==`, a plain CSV string) in a fresh store, storing
`[99]` for the same query returns `false`, leaves the state untouched, and
`retrieve` still returns `[10]`. -/
theorem store_write_once_plain_witness :
    store ⟨some [['A', 'Q', '=', '=']], [(0, ['C', 'g', '=', '='])]⟩
      [1] [99] =
      .ok (false, ⟨some [['A', 'Q', '=', '=']], [(0, ['C', 'g', '=', '='])]⟩) ∧
    retrieve ⟨some [['A', 'Q', '=', '=']], [(0, ['C', 'g', '=', '='])]⟩ [1] =
      .ok (some [10]) :=
  store_write_once_plain initialStore
    ⟨some [['A', 'Q', '=', '=']], [(0, ['C', 'g', '=', '='])]⟩
    [1] [10] [99] (by decide) (by decide) (by decide) (by decide)

/-- C3 (counterexample): the claim fails as stated. In a fresh cache, store
`q1 = [0]` then `q2 = [2]` (both stores succeed), then `remove q1`. The
remaining entry is inconsistent: `contains q2` is still `true`, but
`retrieve q2` raises FileNotFoundError instead of returning the stored
answer `[3]`, because the index rows shifted up one position while the
payload file kept its old positional name (`q2`'s row is now 0, but its
payload lives in `1.csv` and `0.csv` was deleted). -/
theorem remove_shifts_rows_counterexample :
    store initialStore [0] [1] =
      .ok (true, ⟨some [['A', 'A', '=', '=']], [(0, ['A', 'Q', '=', '='])]⟩) ∧
    store ⟨some [['A', 'A', '=', '=']], [(0, ['A', 'Q', '=', '='])]⟩ [2] [3] =
      .ok (true, ⟨some [['A', 'A', '=', '='], ['A', 'g', '=', '=']],
        [(1, ['A', 'w', '=', '=']), (0, ['A', 'Q', '=', '='])]⟩) ∧
    contains (remove ⟨some [['A', 'A', '=', '='], ['A', 'g', '=', '=']],
      [(1, ['A', 'w', '=', '=']), (0, ['A', 'Q', '=', '='])]⟩ [0]) [2] =
      true ∧
    retrieve (remove ⟨some [['A', 'A', '=', '='], ['A', 'g', '=', '=']],
      [(1, ['A', 'w', '=', '=']), (0, ['A', 'Q', '=', '='])]⟩ [0]) [2] =
      .error .fileNotFound := by
  refine ⟨by decide, by decide, by decide, by decide⟩

/-- C3 (amended): removal keeps the remaining entry consistent when the
removed query was stored after it and the remaining entry's encoded query
and answer are plain CSV strings. Starting from a fresh cache, after
`store(q1, a1)` and then `store(q2, a2)` both succeed, `remove(q2)` leaves
`q1` fully consistent: `contains(q1)` is `true` and `retrieve(q1)` returns
`a1`. (Removing the earlier-stored query instead shifts the positional row
identifiers and breaks `retrieve` of the later one, as the counterexample
shows — the accepted limitation the spec's design notes flag.) -/
theorem remove_last_stored_keeps_consistent (q1 a1 q2 a2 : List Nat)
    (σ1 σ2 : FileBasedStore) (ha1 : ∀ x ∈ a1, x < 256)
    (hq1p : csvPlainString (serializeContent q1) = true)
    (ha1p : csvPlainString (serializeContent a1) = true)
    (h1 : store initialStore q1 a1 = .ok (true, σ1))
    (h2 : store σ1 q2 a2 = .ok (true, σ2)) :
    contains (remove σ2 q2) q1 = true ∧
    retrieve (remove σ2 q2) q1 = .ok (some a1) := by
  obtain ⟨hna1, -, -⟩ := plain_components _ hq1p
  have e1 : store initialStore q1 a1 =
      .ok (true, ⟨some [serializeContent q1],
        [(0, serializeContent a1)]⟩) := rfl
  have hσ1 : σ1 = ⟨some [serializeContent q1],
      [(0, serializeContent a1)]⟩ := by
    have hx := e1.symm.trans h1
    simp only [Except.ok.injEq, Prod.mk.injEq, true_and] at hx
    exact hx.symm
  subst hσ1
  have hobj1 : colNonStr [serializeContent q1] = false :=
    colNonStr_false_of_plain _ _ (by simp) hq1p
  have hcells1 : colReread [serializeContent q1] =
      [CsvCell.str (serializeContent q1)] := by
    rw [colReread_object _ hobj1]
    simp [cellReread, hna1]
  have hm11 : CsvCell.str (serializeContent q1) ∈
      colReread [serializeContent q1] := by
    rw [hcells1]; exact List.mem_cons_self _ _
  have hfi11 : firstIndexCell (CsvCell.str (serializeContent q1))
      (colReread [serializeContent q1]) = 0 := by
    rw [hcells1]; simp [firstIndexCell]
  have hrt := b64_roundtrip a1 ha1
  have ha1p2 : csvPlainString (b64EncodeBytes a1) = true := ha1p
  by_cases hs : serializeContent q2 = serializeContent q1
  · exfalso
    have e2 : store (⟨some [serializeContent q1],
        [(0, serializeContent a1)]⟩ : FileBasedStore) q2 a2 =
        .ok (false, ⟨some [serializeContent q1],
          [(0, serializeContent a1)]⟩) := by
      simp only [store]
      rw [if_pos (by rw [hs]; exact hm11)]
      rw [hs, hfi11]
      rfl
    rw [e2] at h2
    simp at h2
  · have hmem2 : CsvCell.str (serializeContent q2) ∉
        colReread [serializeContent q1] := by
      rw [hcells1]
      simp [hs]
    have e2 : store (⟨some [serializeContent q1],
        [(0, serializeContent a1)]⟩ : FileBasedStore) q2 a2 =
        .ok (true, ⟨some [serializeContent q1, serializeContent q2],
          [(1, serializeContent a2), (0, serializeContent a1)]⟩) := by
      simp only [store, if_neg hmem2]
      simp [payloadWrite]
    rw [e2] at h2
    have hσ2 : σ2 = ⟨some [serializeContent q1, serializeContent q2],
        [(1, serializeContent a2), (0, serializeContent a1)]⟩ := by
      simp only [Except.ok.injEq, Prod.mk.injEq, true_and] at h2
      exact h2.symm
    subst hσ2
    have hobj2 : colNonStr [serializeContent q1, serializeContent q2] =
        false := colNonStr_false_of_plain _ _ (by simp) hq1p
    by_cases hna2 : isNaLiteral (serializeContent q2) = true
    · -- the removed row rereads as NaN: remove misses and is a no-op
      have hcells2 : colReread [serializeContent q1, serializeContent q2] =
          [CsvCell.str (serializeContent q1), CsvCell.nonStr] := by
        rw [colReread_object _ hobj2]
        simp [cellReread, hna1, hna2]
      have hniem : CsvCell.str (serializeContent q2) ∉
          colReread [serializeContent q1, serializeContent q2] := by
        rw [hcells2]
        simp [hs]
      have er : remove (⟨some [serializeContent q1, serializeContent q2],
          [(1, serializeContent a2), (0, serializeContent a1)]⟩ :
            FileBasedStore) q2 =
          ⟨some [serializeContent q1, serializeContent q2],
            [(1, serializeContent a2), (0, serializeContent a1)]⟩ := by
        simp only [remove, if_neg hniem]
      rw [er]
      have hm1 : CsvCell.str (serializeContent q1) ∈
          colReread [serializeContent q1, serializeContent q2] := by
        rw [hcells2]; exact List.mem_cons_self _ _
      have hfi1 : firstIndexCell (CsvCell.str (serializeContent q1))
          (colReread [serializeContent q1, serializeContent q2]) = 0 := by
        rw [hcells2]; simp [firstIndexCell]
      constructor
      · simp only [contains]
        exact decide_eq_true hm1
      · simp only [retrieve, if_pos hm1, hfi1]
        simp [payloadLookup, ha1p2, deserializeContent, serializeContent,
          hrt]
    · -- the removed row rereads as its string: remove hits row 1
      have hcells2 : colReread [serializeContent q1, serializeContent q2] =
          [CsvCell.str (serializeContent q1),
            CsvCell.str (serializeContent q2)] := by
        rw [colReread_object _ hobj2]
        simp only [Bool.not_eq_true] at hna2
        simp [cellReread, hna1, hna2]
      have hm2 : CsvCell.str (serializeContent q2) ∈
          colReread [serializeContent q1, serializeContent q2] := by
        rw [hcells2]
        exact List.mem_cons_of_mem _ (List.mem_cons_self _ _)
      have hfi2 : firstIndexCell (CsvCell.str (serializeContent q2))
          (colReread [serializeContent q1, serializeContent q2]) = 1 := by
        rw [hcells2]
        have hne2 : ¬ (serializeContent q1 = serializeContent q2) :=
          fun hx => hs hx.symm
        simp [firstIndexCell, hne2]
      have er : remove (⟨some [serializeContent q1, serializeContent q2],
          [(1, serializeContent a2), (0, serializeContent a1)]⟩ :
            FileBasedStore) q2 =
          ⟨some [serializeContent q1], [(0, serializeContent a1)]⟩ := by
        simp only [remove, if_pos hm2, hfi2]
        simp [payloadDelete, List.eraseIdx]
      rw [er]
      constructor
      · simp only [contains]
        exact decide_eq_true hm11
      · simp only [retrieve, if_pos hm11, hfi11]
        simp [payloadLookup, ha1p2, deserializeContent, serializeContent,
          hrt]

/-- Witness for `remove_last_stored_keeps_consistent`: store `[0]` then
`[2]` in a fresh cache, remove the later-stored `[2]`; the entry for `[0]`
(whose encoding `AA==` is a plain CSV string) is still present and retrieves
its answer `[1]`. -/
theorem remove_last_stored_keeps_consistent_witness :
    contains (remove ⟨some [['A', 'A', '=', '='], ['A', 'g', '=', '=']],
      [(1, ['A', 'w', '=', '=']), (0, ['A', 'Q', '=', '='])]⟩ [2]) [0] =
      true ∧
    retrieve (remove ⟨some [['A', 'A', '=', '='], ['A', 'g', '=', '=']],
      [(1, ['A', 'w', '=', '=']), (0, ['A', 'Q', '=', '='])]⟩ [2]) [0] =
      .ok (some [1]) :=
  remove_last_stored_keeps_consistent [0] [1] [2] [3]
    ⟨some [['A', 'A', '=', '=']], [(0, ['A', 'Q', '=', '='])]⟩
    ⟨some [['A', 'A', '=', '='], ['A', 'g', '=', '=']],
      [(1, ['A', 'w', '=', '=']), (0, ['A', 'Q', '=', '='])]⟩
    (by decide) (by decide) (by decide) (by decide) (by decide)

/-- C8 (counterexample): the claim fails as stated. With the query `[0]`
present in the index but its payload file missing on disk, `retrieve` does
not return the benign default `none`: the FileNotFoundError from reading the
payload file propagates uncaught. -/
theorem retrieve_missing_payload_counterexample :
    contains ⟨some [['A', 'A', '=', '=']], []⟩ [0] = true ∧
    retrieve ⟨some [['A', 'A', '=', '=']], []⟩ [0] = .error .fileNotFound ∧
    retrieve ⟨some [['A', 'A', '=', '=']], []⟩ [0] ≠ .ok none := by
  refine ⟨by decide, by decide, by decide⟩

/-- C8 (amended): for every query present in the cache index whose backing
payload file is missing on disk, `retrieve` raises: the FileNotFoundError
from the payload read propagates uncaught (the benign `none` default applies
only when the query is absent from the index or the index file itself is
missing). -/
theorem retrieve_missing_payload_raises (σ : FileBasedStore) (q : List Nat)
    (prompts : List (List Char)) (hidx : σ.indexFile = some prompts)
    (hmem : CsvCell.str (serializeContent q) ∈ colReread prompts)
    (hpay : payloadLookup σ.payloads
      (firstIndexCell (CsvCell.str (serializeContent q))
        (colReread prompts)) = none) :
    retrieve σ q = .error .fileNotFound := by
  simp only [retrieve, hidx, if_pos hmem, hpay]

/-- Witness for `retrieve_missing_payload_raises`: the index lists query
`[5]` but no payload file exists; `retrieve` fails with FileNotFoundError. -/
theorem retrieve_missing_payload_raises_witness :
    retrieve ⟨some [['B', 'Q', '=', '=']], []⟩ [5] = .error .fileNotFound :=
  retrieve_missing_payload_raises ⟨some [['B', 'Q', '=', '=']], []⟩ [5]
    [['B', 'Q', '=', '=']] rfl (by decide) (by decide)

/-- A commit as `_should_remove_branch` inspects it: only the author's name
is consulted (`last_commit.author.name`, git_manager.py:264-266). -/
structure Commit where
  authorName : List Char
  deriving DecidableEq, Repr

/-- A branch as `_cleanup_obsolete_branches` sees it: its name (one entry of
the bot-prefixed listing returned by `_find_automation_branches`) and its
commits, most recent first, as `iter_commits` yields them. -/
structure Branch where
  name : List Char
  commits : List Commit
  deriving DecidableEq, Repr

def listPrefixOf : List Char → List Char → Bool
  | [], _ => true
  | _ :: _, [] => false
  | a :: as, b :: bs => a == b && listPrefixOf as bs

/-- Python's substring test `needle in hay`. -/
def strContainsSub (hay needle : List Char) : Bool :=
  match hay with
  | [] => needle.isEmpty
  | _ :: rest => listPrefixOf needle hay || strContainsSub rest needle

/-- The bot author name `GitManager.initialize` configures as the commit
author (git_manager.py:50-52). -/
def botName : List Char := "TechDebotBot".toList

/-- The bot author email configured alongside `botName`. -/
def botEmail : List Char := "tech-debt-bot@reply.de".toList

/-- The `author_name` literal `GitManager.initialize` actually passes to the
stale-branch cleanup (git_manager.py:56): the string "Timo", not the bot
identity configured three lines earlier. -/
def staleCleanupAuthor : List Char := "Timo".toList

/-- `GitManager._should_remove_branch` (git_manager.py:246-268): a branch is
deleted when its name does not contain `current_branch_id`, it has at least
one commit, and its most recent commit's author name equals `author_name`. -/
def shouldRemoveBranch (branch : Branch)
    (author_name current_branch_id : List Char) : Bool :=
  if strContainsSub branch.name current_branch_id then false
  else
    match branch.commits with
    | [] => false
    | last_commit :: _ => last_commit.authorName == author_name

/-- `GitManager._cleanup_obsolete_branches` (git_manager.py:192-207): the
sublist of the bot-prefixed branches that get deleted remotely. -/
def cleanupObsoleteBranches (branches : List Branch)
    (author_name current_branch_id : List Char) : List Branch :=
  branches.filter (fun b => shouldRemoveBranch b author_name current_branch_id)

/-- The stale-branch cleanup as `GitManager.initialize` invokes it
(git_manager.py:54-58): over the bot-prefixed branches, with
`author_name="Timo"` and the current short revision id. -/
def initStaleCleanupDeletes (branches : List Branch)
    (latest_commit : List Char) : List Branch :=
  cleanupObsoleteBranches branches staleCleanupAuthor latest_commit

/-- C1: the claim fails on the code; the code is the slip. `initialize`
configures the bot identity "TechDebotBot" as the commit author but passes
the unrelated literal "Timo" to the cleanup, so with the current revision
2222222 a stale bot-prefixed branch whose last commit author is the bot
identity is NOT deleted (the claim requires it deleted), while a stale
branch whose last commit author is "Timo" — not the bot identity — IS
deleted (the claim says such a branch is never deleted). -/
theorem staleCleanup_checks_timo_not_bot :
    initStaleCleanupDeletes
      [⟨"tech-debt-bot-a-1111111".toList, [⟨botName⟩]⟩,
        ⟨"tech-debt-bot-b-1111111".toList, [⟨"Timo".toList⟩]⟩]
      "2222222".toList =
      [⟨"tech-debt-bot-b-1111111".toList, [⟨"Timo".toList⟩]⟩] ∧
    botName ≠ staleCleanupAuthor := by
  refine ⟨by decide, by decide⟩

/-- The `Repo` handle state the modelled `GitManager` methods consult: the
head commit's hexsha, the checked-out branch, and the upstream tracking
branch name (`""` when no upstream is configured, as the source's
`rev_parse` with `with_exceptions=False` returns). The git side effects
themselves happen in the external version-control client. -/
structure SourceTree where
  headSha : List Char
  activeBranch : List Char
  trackingBranch : List Char
  deriving DecidableEq, Repr

/-- A `GitManager` after construction: `_source_tree` is `None` until
`initialize` completes, `_feature_branch_name` starts empty
(git_manager.py:28-29). -/
structure GitManager where
  sourceTree : Option SourceTree
  featureBranchName : List Char
  deriving DecidableEq, Repr

/-- `GitManager.create_feature_branch` (git_manager.py:62-76): guarded by the
`notInitialized` ValueError; otherwise builds the deterministic branch name
from the identifier and the short revision id and checks it out. -/
def createFeatureBranch (m : GitManager) (identifier : List Char) :
    Except PyErr GitManager :=
  match m.sourceTree with
  | none => .error .notInitialized
  | some t =>
    let latest_commit := t.headSha.take 7
    let name := "tech-debt-bot-".toList ++ identifier ++ '-' :: latest_commit
    let t2 : SourceTree := { t with activeBranch := name }
    .ok { sourceTree := some t2, featureBranchName := name }

/-- `GitManager.stage_and_record` (git_manager.py:78-88): guarded by the
`notInitialized` ValueError; the staging and commit are external git calls. -/
def stageAndRecord (m : GitManager) (message : List Char) :
    Except PyErr GitManager :=
  match m.sourceTree with
  | none => .error .notInitialized
  | some _ => .ok m

/-- `GitManager.create_merge_request` (git_manager.py:90-129): guarded by the
`notInitialized` ValueError; the HTTP POST is external, and a non-201
response is only logged. -/
def createMergeRequest (m : GitManager) (title body base : List Char) :
    Except PyErr GitManager :=
  match m.sourceTree with
  | none => .error .notInitialized
  | some _ => .ok m

/-- `GitManager.publish_and_verify_remote` (git_manager.py:131-143): it has
NO initialization guard; its first statement dereferences
`self._source_tree.active_branch`, so on an uninitialized manager Python
raises AttributeError, not the guard ValueError. Otherwise it pushes,
establishing an upstream when none exists yet. -/
def publishAndVerifyRemote (m : GitManager) : Except PyErr GitManager :=
  match m.sourceTree with
  | none => .error .attributeError
  | some t =>
    if t.trackingBranch.isEmpty then
      let t2 : SourceTree := { t with trackingBranch := t.activeBranch }
      .ok { m with sourceTree := some t2 }
    else
      .ok m

/-- A manager on which `initialize` has not completed. -/
def uninitManager : GitManager :=
  { sourceTree := none, featureBranchName := [] }

/-- C7: the claim fails on the code; the code is the slip. On an
uninitialized manager, `create_feature_branch`, `stage_and_record` and
`create_merge_request` fail with the `notInitialized` guard ValueError as
claimed, but `publish_and_verify_remote` has no guard: it fails with an
AttributeError from dereferencing the absent repository handle, which is not
the `notInitialized` guard error. -/
theorem uninit_guard_behavior :
    createFeatureBranch uninitManager "T1".toList = .error .notInitialized ∧
    stageAndRecord uninitManager "msg".toList = .error .notInitialized ∧
    createMergeRequest uninitManager "t".toList "b".toList "main".toList =
      .error .notInitialized ∧
    publishAndVerifyRemote uninitManager = .error .attributeError ∧
    PyErr.attributeError ≠ PyErr.notInitialized := by
  refine ⟨rfl, rfl, rfl, rfl, by decide⟩

end WinCompatFix
